import Mathlib

/-!
Shallow embedding of the repository `local_agent` (file `src/local_agent/shell.py`):
persistent shell sessions that frame each command with a random sentinel line and
recover the exit status by scanning the child's standard-output stream.

Modelling conventions:
* byte buffers (`bytes` / `bytearray`) are `List Nat`;
* fallible Python code that raises becomes `Except`-valued; the exception kinds are
  named after the specification's error taxonomy (`ProtocolError`, and the
  `ShellErr` constructors), each carrying the message text the code builds;
* the select-based read loop of `_capture_output` is driven by an explicit list of
  stream-readiness events (a schedule), so the loop becomes a recursive function
  over that list;
* filesystem notions (`Path.cwd`, `Path.resolve`, existence checks) are abstract
  parameters of the registry model, since they are environment queries.
-/

/-- Byte-level whitespace, as Python's `bytes.strip` / `bytes.split` treat it:
space, tab, newline, carriage return, vertical tab, form feed. -/
def isSpaceByte (b : Nat) : Bool :=
  b == 32 || b == 9 || b == 10 || b == 13 || b == 11 || b == 12

/-- Python `bytes.strip()` with no argument: drop leading and trailing whitespace. -/
def stripBytes (l : List Nat) : List Nat :=
  ((l.dropWhile isSpaceByte).reverse.dropWhile isSpaceByte).reverse

/-- Helper for `splitWs`; `acc` is the reversed current token. -/
def splitWsAux : List Nat → List Nat → List (List Nat)
  | [], acc => if acc = [] then [] else [acc.reverse]
  | b :: rest, acc =>
    if isSpaceByte b then
      if acc = [] then splitWsAux rest [] else acc.reverse :: splitWsAux rest []
    else splitWsAux rest (b :: acc)

/-- Python `bytes.split()` with no argument: split on runs of whitespace,
discarding leading and trailing whitespace. -/
def splitWs (l : List Nat) : List (List Nat) := splitWsAux l []

/-- Decimal digit value of an ASCII byte. -/
def digitVal (b : Nat) : Option Nat :=
  if 48 ≤ b && b ≤ 57 then some (b - 48) else none

/-- Digits of a Python integer literal after the first digit: plain digits, with a
single underscore allowed between two digits (CPython `int` grammar). -/
def parseUDigitsGo : List Nat → Nat → Option Nat
  | [], acc => some acc
  | b :: rest, acc =>
    if b == 95 then
      match rest with
      | [] => none
      | c :: rest2 =>
        match digitVal c with
        | some d => parseUDigitsGo rest2 (acc * 10 + d)
        | none => none
    else
      match digitVal b with
      | some d => parseUDigitsGo rest (acc * 10 + d)
      | none => none

/-- Unsigned decimal numeral: nonempty, starts with a digit. -/
def parseUDigits : List Nat → Option Nat
  | [] => none
  | b :: rest =>
    match digitVal b with
    | some d => parseUDigitsGo rest d
    | none => none

/-- Python `int()` applied to a whitespace-free ASCII byte token (the only shape
`_extract_completion` feeds it, since the token comes out of `bytes.split`):
optional sign, then a decimal numeral. -/
def pyIntOfBytes (l : List Nat) : Option Int :=
  match l with
  | 43 :: rest => (parseUDigits rest).map (fun n => (n : Int))
  | 45 :: rest => (parseUDigits rest).map (fun n => -(n : Int))
  | _ => (parseUDigits l).map (fun n => (n : Int))

/-- Whether `pat` occurs in `buf` starting at position `i`. -/
def occursAt (buf pat : List Nat) (i : Nat) : Bool :=
  pat.isPrefixOf (buf.drop i)

/-- Fuel-driven scan for the leftmost occurrence of `pat` at a position `≥ i`. -/
def bytesFindAux (buf pat : List Nat) : Nat → Nat → Option Nat
  | _, 0 => none
  | i, fuel + 1 =>
    if occursAt buf pat i = true then some i else bytesFindAux buf pat (i + 1) fuel

/-- Python `bytes.find(pat, start)`: index of the leftmost occurrence at or after
`start`, or `none`. -/
def bytesFindFrom (buf pat : List Nat) (start : Nat) : Option Nat :=
  bytesFindAux buf pat start (buf.length + 1 - start)

/-- Python `bytes.find(pat)`. -/
def bytesFind (buf pat : List Nat) : Option Nat := bytesFindFrom buf pat 0

/-- Protocol-level failures of the completion protocol, named as in the spec's
error taxonomy; the code raises `RuntimeError` with the corresponding message. -/
inductive ProtocolError where
  /-- "Malformed completion marker from shell session" -/
  | malformedMarker
  /-- "Invalid exit code reported by shell session" -/
  | invalidExitCode
  /-- "Shell session did not report a completion marker" -/
  | noMarker
deriving DecidableEq

/-- Embedding of `_extract_completion` (shell.py lines 240-264). Returns
`ok none` for "not yet found", `ok (some (exitCode, stdoutBytes, remainder))` on
success, where `remainder` is what the Python code writes back into the shared
`bytearray` (`buffer[:] = buffer[newline_index + 1 :]`), and `error` for the two
malformed-marker paths. -/
def extractCompletion (buffer marker : List Nat) :
    Except ProtocolError (Option (Int × List Nat × List Nat)) :=
  match bytesFind buffer marker with
  | none => Except.ok none
  | some index =>
    match bytesFindFrom buffer [10] index with
    | none => Except.ok none
    | some newlineIndex =>
      let markerLine := stripBytes ((buffer.drop index).take (newlineIndex - index))
      let parts := splitWs markerLine
      if parts.length < 2 then Except.error ProtocolError.malformedMarker
      else
        match pyIntOfBytes (parts.getLastD []) with
        | none => Except.error ProtocolError.invalidExitCode
        | some exitCode =>
          Except.ok (some (exitCode, buffer.take index, buffer.drop (newlineIndex + 1)))

example : extractCompletion [77, 32, 48, 10, 88] [77] =
    Except.ok (some ((0 : Int), [], [88])) := rfl

example : extractCompletion [65, 66, 67] [77] = Except.ok none := rfl

example : extractCompletion [65, 77, 32, 48] [77] = Except.ok none := rfl

example : extractCompletion [77, 10] [77] = Except.error ProtocolError.malformedMarker := rfl

example : extractCompletion [77, 32, 88, 10] [77] =
    Except.error ProtocolError.invalidExitCode := rfl

example : pyIntOfBytes [45, 49, 50] = some (-12) := rfl

example : pyIntOfBytes [49, 95, 50] = some 12 := rfl

example : pyIntOfBytes [49, 95, 95, 50] = none := rfl

/-! ### Characterisation of the byte search functions -/

theorem isPrefixOf_length (p l : List Nat) (h : p.isPrefixOf l = true) :
    p.length ≤ l.length := by
  induction p generalizing l with
  | nil => simp
  | cons a as ih =>
    cases l with
    | nil => simp [List.isPrefixOf] at h
    | cons b bs =>
      simp only [List.isPrefixOf, Bool.and_eq_true] at h
      simpa using ih bs h.2

theorem occursAt_of_ge_length (buf pat : List Nat) (i : Nat) (hp : pat ≠ [])
    (hi : buf.length ≤ i) : occursAt buf pat i = false := by
  cases h : occursAt buf pat i with
  | false => rfl
  | true =>
    exfalso
    have hlen := isPrefixOf_length pat (buf.drop i) h
    rw [List.length_drop] at hlen
    have : pat.length = 0 := by omega
    exact hp (List.length_eq_zero.mp this)

theorem lt_length_of_occursAt (buf pat : List Nat) (i : Nat) (hp : pat ≠ [])
    (h : occursAt buf pat i = true) : i < buf.length := by
  by_contra hc
  rw [occursAt_of_ge_length buf pat i hp (by omega)] at h
  exact Bool.noConfusion h

theorem bytesFindAux_some (buf pat : List Nat) (fuel : Nat) :
    ∀ i r, bytesFindAux buf pat i fuel = some r →
      i ≤ r ∧ occursAt buf pat r = true ∧
        ∀ k, i ≤ k → k < r → occursAt buf pat k = false := by
  induction fuel with
  | zero => intro i r h; simp [bytesFindAux] at h
  | succ n ih =>
    intro i r h
    by_cases hc : occursAt buf pat i = true
    · simp only [bytesFindAux, hc, if_pos, Option.some.injEq] at h
      subst h
      exact ⟨Nat.le_refl _, hc, fun k hk1 hk2 => absurd hk2 (by omega)⟩
    · simp only [bytesFindAux, hc, if_neg, if_false] at h
      obtain ⟨h1, h2, h3⟩ := ih (i + 1) r h
      refine ⟨by omega, h2, ?_⟩
      intro k hk1 hk2
      rcases Nat.eq_or_lt_of_le hk1 with heq | hlt
      · subst heq
        revert hc
        cases occursAt buf pat i <;> simp
      · exact h3 k (by omega) hk2

theorem bytesFindAux_none (buf pat : List Nat) (fuel : Nat) :
    ∀ i, bytesFindAux buf pat i fuel = none →
      ∀ k, i ≤ k → k < i + fuel → occursAt buf pat k = false := by
  induction fuel with
  | zero => intro i _ k h1 h2; exact absurd h2 (by omega)
  | succ n ih =>
    intro i h k h1 h2
    by_cases hc : occursAt buf pat i = true
    · simp [bytesFindAux, hc] at h
    · simp only [bytesFindAux, hc, if_neg, if_false] at h
      rcases Nat.eq_or_lt_of_le h1 with heq | hlt
      · rw [← heq]
        revert hc
        cases occursAt buf pat i <;> simp
      · exact ih (i + 1) h k hlt (by omega)

theorem bytesFindAux_complete (buf pat : List Nat) (fuel : Nat) :
    ∀ i r, i ≤ r → r < i + fuel → occursAt buf pat r = true →
      ∃ s, bytesFindAux buf pat i fuel = some s := by
  induction fuel with
  | zero => intro i r h1 h2 _; exact absurd h2 (by omega)
  | succ n ih =>
    intro i r h1 h2 hr
    by_cases hc : occursAt buf pat i = true
    · exact ⟨i, by simp [bytesFindAux, hc]⟩
    · have hne : i ≠ r := fun he => hc (he ▸ hr)
      obtain ⟨s, hs⟩ := ih (i + 1) r (by omega) (by omega) hr
      exact ⟨s, by simp [bytesFindAux, hc, hs]⟩

theorem bytesFindFrom_some (buf pat : List Nat) (start r : Nat)
    (h : bytesFindFrom buf pat start = some r) :
    start ≤ r ∧ occursAt buf pat r = true ∧
      ∀ k, start ≤ k → k < r → occursAt buf pat k = false :=
  bytesFindAux_some buf pat _ start r h

theorem bytesFindFrom_none (buf pat : List Nat) (start : Nat) (hp : pat ≠ [])
    (h : bytesFindFrom buf pat start = none) :
    ∀ k, start ≤ k → occursAt buf pat k = false := by
  intro k hk
  by_cases hlt : k < start + (buf.length + 1 - start)
  · exact bytesFindAux_none buf pat _ start h k hk hlt
  · exact occursAt_of_ge_length buf pat k hp (by omega)

theorem bytesFindFrom_of_first (buf pat : List Nat) (start r : Nat) (hp : pat ≠ [])
    (h1 : start ≤ r) (h2 : occursAt buf pat r = true)
    (h3 : ∀ k, start ≤ k → k < r → occursAt buf pat k = false) :
    bytesFindFrom buf pat start = some r := by
  have hr : r < buf.length := lt_length_of_occursAt buf pat r hp h2
  obtain ⟨s, hs⟩ :=
    bytesFindAux_complete buf pat (buf.length + 1 - start) start r h1 (by omega) h2
  obtain ⟨hs1, hs2, hs3⟩ := bytesFindAux_some buf pat _ start s hs
  have hsr : s = r := by
    by_contra hne
    rcases Nat.lt_or_ge s r with hlt | hge
    · rw [h3 s hs1 hlt] at hs2; exact Bool.noConfusion hs2
    · have : r < s := by omega
      rw [hs3 r h1 this] at h2; exact Bool.noConfusion h2
  rw [bytesFindFrom, hs, hsr]

theorem occursAt_single (buf : List Nat) (b j : Nat) :
    occursAt buf [b] j = true ↔ buf.get? j = some b := by
  induction j generalizing buf with
  | zero =>
    cases buf with
    | nil => simp [occursAt, List.isPrefixOf]
    | cons x xs =>
      simp only [occursAt, List.drop_zero, List.isPrefixOf, Bool.and_eq_true, beq_iff_eq,
        List.get?_cons_zero, Option.some.injEq]
      constructor
      · rintro ⟨h, -⟩; exact h.symm
      · intro h; exact ⟨h.symm, trivial⟩
  | succ n ih =>
    cases buf with
    | nil => simp [occursAt, List.isPrefixOf]
    | cons x xs =>
      simpa [occursAt] using ih xs

/-- Helper shared by the extraction theorems: the spec-level description of the
sentinel position (first occurrence of the marker, first newline at or after it)
determines what the two `find` calls inside `_extract_completion` return. -/
theorem extract_find_results (buffer marker : List Nat) (hm : marker ≠ []) (i j : Nat)
    (hocc : occursAt buffer marker i = true)
    (hmin : ∀ k, k < i → occursAt buffer marker k = false)
    (hij : i ≤ j) (hj : buffer.get? j = some 10)
    (hminj : ∀ k, k < j → i ≤ k → buffer.get? k ≠ some 10) :
    bytesFind buffer marker = some i ∧ bytesFindFrom buffer [10] i = some j := by
  constructor
  · exact bytesFindFrom_of_first buffer marker 0 i hm (Nat.zero_le i) hocc
      (fun k _ hk => hmin k hk)
  · refine bytesFindFrom_of_first buffer [10] i j (by simp) hij
      ((occursAt_single buffer 10 j).mpr hj) ?_
    intro k hk1 hk2
    cases hok : occursAt buffer [10] k with
    | false => rfl
    | true => exact absurd ((occursAt_single buffer 10 k).mp hok) (hminj k hk2 hk1)

/-- C1: `_extract_completion` reports not-yet-found when the sentinel token is
absent from the buffer, and when it is present but no newline follows it; once
the token's line is newline-terminated (and the line parses), it returns the
final whitespace-delimited field of that line as the integer exit code together
with the bytes of the buffer strictly before the token. -/
theorem extract_completion_correct (buffer marker : List Nat) (hm : marker ≠ []) :
    ((∀ i, i < buffer.length → occursAt buffer marker i = false) →
        extractCompletion buffer marker = Except.ok none) ∧
    (∀ i, occursAt buffer marker i = true →
      (∀ k, k < i → occursAt buffer marker k = false) →
      ((∀ j, j < buffer.length → i ≤ j → buffer.get? j ≠ some 10) →
          extractCompletion buffer marker = Except.ok none) ∧
      (∀ j, i ≤ j → buffer.get? j = some 10 →
        (∀ k, k < j → i ≤ k → buffer.get? k ≠ some 10) →
        ∀ code : Int,
          2 ≤ (splitWs (stripBytes ((buffer.drop i).take (j - i)))).length →
          pyIntOfBytes
              ((splitWs (stripBytes ((buffer.drop i).take (j - i)))).getLastD []) =
            some code →
          extractCompletion buffer marker =
            Except.ok (some (code, buffer.take i, buffer.drop (j + 1))))) := by
  constructor
  · intro h
    have hfind : bytesFind buffer marker = none := by
      cases hf : bytesFind buffer marker with
      | none => rfl
      | some i =>
        obtain ⟨-, h2, -⟩ := bytesFindFrom_some buffer marker 0 i hf
        have hi := lt_length_of_occursAt buffer marker i hm h2
        rw [h i hi] at h2
        exact Bool.noConfusion h2
    simp [extractCompletion, hfind]
  · intro i hocc hmin
    have hfind : bytesFind buffer marker = some i :=
      bytesFindFrom_of_first buffer marker 0 i hm (Nat.zero_le i) hocc
        (fun k _ hk => hmin k hk)
    constructor
    · intro hnl
      have hnone : bytesFindFrom buffer [10] i = none := by
        cases hf : bytesFindFrom buffer [10] i with
        | none => rfl
        | some j =>
          obtain ⟨hij, hj, -⟩ := bytesFindFrom_some buffer [10] i j hf
          have hjl := lt_length_of_occursAt buffer [10] j (by simp) hj
          exact absurd ((occursAt_single buffer 10 j).mp hj) (hnl j hjl hij)
      simp [extractCompletion, hfind, hnone]
    · intro j hij hj hminj code hlen hparse
      obtain ⟨-, hsome⟩ :=
        extract_find_results buffer marker hm i j hocc hmin hij hj hminj
      simp only [extractCompletion, hfind, hsome]
      rw [if_neg (by omega)]
      rw [hparse]

/-- Witness for C1 at a concrete buffer `M 0\n` with sentinel `M`. -/
theorem extract_completion_correct_witness :
    extractCompletion [77, 32, 48, 10] [77] =
      Except.ok (some ((0 : Int), [], [])) := by
  have h := (((extract_completion_correct [77, 32, 48, 10] [77] (by decide)).2 0
      (by decide) (by decide)).2) 3 (by decide) (by decide) (by decide) 0
      (by decide) (by decide)
  exact h

/-- C7: once the sentinel line is newline-terminated, a line with fewer than two
whitespace-delimited fields raises the "malformed completion marker" protocol
error, and a final field that is not a numeric integer raises the "invalid exit
code" protocol error. -/
theorem extract_completion_error_paths (buffer marker : List Nat) (hm : marker ≠ []) :
    ∀ i, occursAt buffer marker i = true →
      (∀ k, k < i → occursAt buffer marker k = false) →
      ∀ j, i ≤ j → buffer.get? j = some 10 →
        (∀ k, k < j → i ≤ k → buffer.get? k ≠ some 10) →
        (((splitWs (stripBytes ((buffer.drop i).take (j - i)))).length < 2 →
            extractCompletion buffer marker =
              Except.error ProtocolError.malformedMarker) ∧
          (2 ≤ (splitWs (stripBytes ((buffer.drop i).take (j - i)))).length →
            pyIntOfBytes
                ((splitWs (stripBytes ((buffer.drop i).take (j - i)))).getLastD []) =
              none →
            extractCompletion buffer marker =
              Except.error ProtocolError.invalidExitCode)) := by
  intro i hocc hmin j hij hj hminj
  obtain ⟨hfind, hsome⟩ :=
    extract_find_results buffer marker hm i j hocc hmin hij hj hminj
  constructor
  · intro hlt
    simp only [extractCompletion, hfind, hsome]
    rw [if_pos hlt]
  · intro hge hparse
    simp only [extractCompletion, hfind, hsome]
    rw [if_neg (by omega)]
    rw [hparse]

/-- Witness for C7: buffer `M\n` has a one-field sentinel line (malformed), and
buffer `M X\n` has a non-numeric final field (invalid exit code). -/
theorem extract_completion_error_paths_witness :
    extractCompletion [77, 10] [77] = Except.error ProtocolError.malformedMarker ∧
    extractCompletion [77, 32, 88, 10] [77] =
      Except.error ProtocolError.invalidExitCode := by
  constructor
  · exact (extract_completion_error_paths [77, 10] [77] (by decide) 0 (by decide)
      (by decide) 1 (by decide) (by decide) (by decide)).1 (by decide)
  · exact (extract_completion_error_paths [77, 32, 88, 10] [77] (by decide) 0
      (by decide) (by decide) 3 (by decide) (by decide) (by decide)).2
      (by decide) (by decide)

/-! ### The output-capture loop of `_capture_output` (shell.py lines 190-237)

The selector loop is driven by a schedule: the list of read results the two
registered streams deliver, in order. `outRead []` / `errRead []` model a
zero-length `os.read`, i.e. end-of-file on that stream. The schedule is the
complete history of what the child ever sends, so exhausting it with no
completion recorded means the loop would sit in `selector.select` forever. -/

inductive CEvent where
  | outRead (data : List Nat)
  | errRead (data : List Nat)
deriving DecidableEq

/-- The loop state of `_capture_output`: the two byte buffers, the recorded
completion (`exit_code` together with `captured_stdout`), which streams are
still registered with the selector, and whether `timeout` was set to `0.0`. -/
structure CaptureState where
  outBuf : List Nat
  errBuf : List Nat
  found : Option (Int × List Nat)
  outReg : Bool
  errReg : Bool
  timeoutZero : Bool
deriving DecidableEq

/-- Fresh state at the top of `_capture_output`: empty buffers, no exit code,
both streams registered, `timeout = None`. -/
def initCaptureState : CaptureState :=
  { outBuf := [], errBuf := [], found := none
    outReg := true, errReg := true, timeoutZero := false }

/-- One delivered read event, exactly as the loop body handles it: extend the
buffer; a zero-length chunk unregisters the stream; after every stdout read,
attempt `_extract_completion`, and on success record the result, keep the
remainder in the (function-local) buffer, unregister stdout and set the
timeout to zero. Events for an unregistered stream cannot be delivered by the
selector and leave the state unchanged. -/
def stepEvent (marker : List Nat) (s : CaptureState) :
    CEvent → Except ProtocolError CaptureState
  | CEvent.outRead d =>
    if s.outReg = false then Except.ok s
    else if d = [] then Except.ok { s with outReg := false }
    else
      let buf := s.outBuf ++ d
      match extractCompletion buf marker with
      | Except.error e => Except.error e
      | Except.ok none => Except.ok { s with outBuf := buf }
      | Except.ok (some (code, pre, remainder)) =>
        Except.ok { s with outBuf := remainder, found := some (code, pre),
                           outReg := false, timeoutZero := true }
  | CEvent.errRead d =>
    if s.errReg = false then Except.ok s
    else if d = [] then Except.ok { s with errReg := false }
    else Except.ok { s with errBuf := s.errBuf ++ d }

/-- Outcome of the capture loop: a completed command (real stdout bytes, stderr
bytes, exit code), or `blocked` when the loop can only keep waiting in
`selector.select` although the schedule holds no further data. -/
inductive CaptureOutcome where
  | done (stdout stderr : List Nat) (code : Int)
  | blocked
deriving DecidableEq

/-- The code after the `while` loop (shell.py lines 234-237): raise the
"no completion marker" protocol error when no exit code was recorded, else
return `captured_stdout`, the stderr buffer and the exit code. -/
def finalizeCapture (s : CaptureState) : Except ProtocolError CaptureOutcome :=
  match s.found with
  | none => Except.error ProtocolError.noMarker
  | some (code, pre) => Except.ok (CaptureOutcome.done pre s.errBuf code)

/-- The `while True` loop of `_capture_output`. The loop leaves the `while`
only via its two `break` statements, both guarded by `exit_code is not None`:
after the sentinel was found and the selector map became empty, or when a
zero-timeout `select` returned no events. When the schedule is exhausted with
no recorded exit code, the loop would block in `selector.select` with nothing
left to deliver, which the model reports as `blocked`. -/
def captureLoop (marker : List Nat) :
    List CEvent → CaptureState → Except ProtocolError CaptureOutcome
  | [], s =>
    if s.found.isSome && s.timeoutZero then finalizeCapture s
    else Except.ok CaptureOutcome.blocked
  | e :: rest, s =>
    if s.found.isSome && s.timeoutZero && !s.outReg && !s.errReg then
      finalizeCapture s
    else
      match stepEvent marker s e with
      | Except.error err => Except.error err
      | Except.ok s' => captureLoop marker rest s'

/-- Embedding of `_capture_output`: run the loop from a fresh state. The
buffers are local to this function; every call starts from
`initCaptureState`. -/
def captureOutput (marker : List Nat) (events : List CEvent) :
    Except ProtocolError CaptureOutcome :=
  captureLoop marker events initCaptureState

example : captureOutput [77] [CEvent.outRead [65, 10], CEvent.errRead [69],
    CEvent.outRead [77, 32, 48, 10], CEvent.errRead []] =
    Except.ok (CaptureOutcome.done [65, 10] [69] 0) := rfl

/-- C3 (code bug): when the child's stdout reaches end-of-file before any
sentinel was found, the loop does not raise the "no completion marker"
protocol error — both `break` statements require `exit_code is not None`, so
after stdout and stderr both hit end-of-file the loop re-enters
`selector.select` with an empty selector map and blocks forever. The
unreachable raise at shell.py line 235 documents the intended behaviour. -/
theorem capture_eof_blocks :
    ∀ marker : List Nat,
      captureOutput marker [CEvent.outRead [], CEvent.errRead []] =
        Except.ok CaptureOutcome.blocked :=
  fun _ => rfl

/-- C4 counterexample: bytes sitting in the buffer after the sentinel's
newline (here the byte `88`) appear in no component of the capture result,
and the next call starts from an empty stdout buffer — the remainder is not
retained for the next `run` call. -/
theorem capture_trailing_bytes_discarded :
    captureOutput [77] [CEvent.outRead [77, 32, 48, 10, 88]] =
      Except.ok (CaptureOutcome.done [] [] 0) ∧
    initCaptureState.outBuf = [] :=
  ⟨rfl, rfl⟩

/-- C4 amended: `_extract_completion` does truncate the buffer up to and
including the consumed sentinel line, leaving the remainder in the buffer
object — but that buffer is local to `_capture_output`, which returns only
`captured_stdout`, the stderr buffer and the exit code, so the remainder is
dropped when `run` returns instead of being retained for the next call. -/
theorem capture_discards_remainder (buffer marker pre remainder : List Nat)
    (code : Int)
    (h : extractCompletion buffer marker = Except.ok (some (code, pre, remainder))) :
    captureOutput marker [CEvent.outRead buffer] =
      Except.ok (CaptureOutcome.done pre [] code) := by
  have hb : buffer ≠ [] := by
    intro he
    subst he
    rcases marker with _ | ⟨a, as⟩ <;>
      simp [extractCompletion, bytesFind, bytesFindFrom, bytesFindAux, occursAt,
        List.isPrefixOf] at h
  obtain ⟨b, bs, rfl⟩ := List.exists_cons_of_ne_nil hb
  simp [captureOutput, captureLoop, stepEvent, initCaptureState, h,
    finalizeCapture]

/-- Witness for C4's amended statement: extraction keeps the remainder `[88]`,
and the capture result drops it. -/
theorem capture_discards_remainder_witness :
    extractCompletion [77, 32, 48, 10, 88] [77] =
      Except.ok (some ((0 : Int), [], [88])) ∧
    captureOutput [77] [CEvent.outRead [77, 32, 48, 10, 88]] =
      Except.ok (CaptureOutcome.done [] [] 0) :=
  ⟨rfl, capture_discards_remainder [77, 32, 48, 10, 88] [77] [] [88] 0 rfl⟩

/-! ### Command framing (`_run_locked`, shell.py lines 63-68) and `shlex.quote` -/

/-- Lowercase hexadecimal digit, the alphabet of `uuid4().hex`. -/
def isLowerHexDigit (c : Char) : Bool :=
  (48 ≤ c.toNat && c.toNat ≤ 57) || (97 ≤ c.toNat && c.toNat ≤ 102)

/-- The characters CPython's `shlex.quote` leaves unquoted: ASCII letters and
digits and `_ @ % + = : , . / -` (the complement of `_find_unsafe`). -/
def shlexSafeChar (c : Char) : Bool :=
  (97 ≤ c.toNat && c.toNat ≤ 122) || (65 ≤ c.toNat && c.toNat ≤ 90) ||
  (48 ≤ c.toNat && c.toNat ≤ 57) || c.toNat == 95 || c.toNat == 64 ||
  c.toNat == 37 || c.toNat == 43 || c.toNat == 61 || c.toNat == 58 ||
  c.toNat == 44 || c.toNat == 46 || c.toNat == 47 || c.toNat == 45

/-- CPython `shlex.quote`: empty string becomes two single quotes; a string of
safe characters is returned unchanged; otherwise wrap in single quotes,
escaping embedded single quotes. -/
def shlexQuote (s : String) : String :=
  if s = "" then "\x27\x27"
  else if s.data.all shlexSafeChar then s
  else "\x27" ++ (s.replace "\x27" "\x27\"\x27\"\x27") ++ "\x27"

/-- Embedding of the payload construction in `_run_locked` (shell.py lines
63-68): the command with a newline appended when missing, then the line
capturing `$?`, then the `printf` line that emits the quoted sentinel and the
captured status. -/
def framePayload (command marker : String) : String :=
  (if command.endsWith "\n" then command else command ++ "\n")
    ++ "status=$?\n"
    ++ ("printf \x27%s %s\\n\x27 " ++ shlexQuote marker ++ " \"$status\"\n")

theorem shlexSafe_of_hex (c : Char) (h : isLowerHexDigit c = true) :
    shlexSafeChar c = true := by
  simp only [isLowerHexDigit, Bool.or_eq_true, Bool.and_eq_true,
    decide_eq_true_eq] at h
  simp only [shlexSafeChar, Bool.or_eq_true, Bool.and_eq_true,
    decide_eq_true_eq, Nat.beq_eq_true_eq]
  omega

/-- A sentinel of the fixed guard text around lowercase hex digits passes
through `shlex.quote` unchanged. -/
theorem shlexQuote_hex_marker (hex : String)
    (hhex : hex.data.all isLowerHexDigit = true) :
    shlexQuote ("__SHELL_DONE_" ++ hex ++ "__") = "__SHELL_DONE_" ++ hex ++ "__" := by
  have hne : ("__SHELL_DONE_" ++ hex ++ "__") ≠ "" := by
    intro he
    have hlen := congrArg String.length he
    rw [String.length_append, String.length_append] at hlen
    have h13 : ("__SHELL_DONE_" : String).length = 13 := rfl
    have h2 : ("__" : String).length = 2 := rfl
    have h0 : ("" : String).length = 0 := rfl
    omega
  have hall : ("__SHELL_DONE_" ++ hex ++ "__").data.all shlexSafeChar = true := by
    rw [String.data_append, String.data_append, List.all_append, List.all_append]
    have hguard1 : ("__SHELL_DONE_" : String).data.all shlexSafeChar = true := by
      decide
    have hguard2 : ("__" : String).data.all shlexSafeChar = true := by decide
    have hmid : hex.data.all shlexSafeChar = true := by
      rw [List.all_eq_true] at hhex ⊢
      exact fun c hc => shlexSafe_of_hex c (hhex c hc)
    rw [hguard1, hguard2, hmid]
    rfl
  rw [shlexQuote, if_neg hne, if_pos hall]

/-- C2: for every command string and every 32-character lowercase-hex sentinel
body, the payload written to the child's stdin is exactly the command (newline
appended iff missing), the `status=$?` line, and the `printf` line carrying
the sentinel `__SHELL_DONE_<32-hex-chars>__` — which `shlex.quote` leaves
unquoted — and the captured status. The hex body models `uuid4().hex`, freshly
drawn per call. -/
theorem frame_payload_correct (command hex : String) (hlen : hex.length = 32)
    (hhex : hex.data.all isLowerHexDigit = true) :
    framePayload command ("__SHELL_DONE_" ++ hex ++ "__") =
      (if command.endsWith "\n" then command else command ++ "\n")
        ++ "status=$?\n"
        ++ ("printf \x27%s %s\\n\x27 " ++ ("__SHELL_DONE_" ++ hex ++ "__")
            ++ " \"$status\"\n") := by
  rw [framePayload, shlexQuote_hex_marker hex hhex]

/-- Witness for C2 at the command `ls` and the all-zero hex body. -/
theorem frame_payload_correct_witness :
    framePayload "ls"
        ("__SHELL_DONE_" ++ "00000000000000000000000000000000" ++ "__") =
      (if ("ls" : String).endsWith "\n" then "ls" else "ls" ++ "\n")
        ++ "status=$?\n"
        ++ ("printf \x27%s %s\\n\x27 "
            ++ ("__SHELL_DONE_" ++ "00000000000000000000000000000000" ++ "__")
            ++ " \"$status\"\n") :=
  frame_payload_correct "ls" "00000000000000000000000000000000" (by decide)
    (by decide)

/-! ### `_ShellProcess._run_locked` and `Shell.run` (shell.py lines 34-147)

The child process is external state; the model supplies its observable
behaviour as parameters: the result of `process.poll()` (`none` while
running), the text a read of its stderr pipe yields for diagnostics, whether
the write to its stdin raises `BrokenPipeError`, and the scheduled stream
events for the capture loop. The UTF-8 decode step of the buffers is the
identity on the byte lists kept in `ShellResult`. -/

/-- Result value of a `run` call (`ShellResult` dataclass); stdout/stderr are
kept as byte lists. -/
structure ShellResult where
  exitCode : Int
  stdout : List Nat
  stderr : List Nat
deriving DecidableEq

/-- Error kinds of the spec's taxonomy carried by `run`; the code raises
`RuntimeError`/`ValueError` with the recorded message. -/
inductive ShellErr where
  | configurationError (msg : String)
  | processTerminated (msg : String)
  | protocolError (e : ProtocolError)
deriving DecidableEq

/-- Observable actions `run` performs against the child process and the
session lock, in order. -/
inductive RunAction where
  | lockAcquire
  | pollCheck
  | write (payload : String)
  | capture
deriving DecidableEq

/-- Overall outcome of one `run` call. -/
inductive RunOutcome where
  | result (r : ShellResult)
  | failed (e : ShellErr)
  | blocked
deriving DecidableEq

/-- Python `str.strip()` restricted to the ASCII whitespace Lean's
`Char.isWhitespace` knows (space, tab, carriage return, newline). -/
def pyStripStr (s : String) : String :=
  String.mk (((s.data.dropWhile Char.isWhitespace).reverse.dropWhile
    Char.isWhitespace).reverse)

/-- `_ShellProcess._terminated_message` (shell.py lines 83-93): the base
message, extended with the stripped stderr text when a read of the child's
stderr yields anything. -/
def terminatedMessage (stderrText : String) : String :=
  if stderrText = "" then "Shell session has terminated."
  else "Shell session has terminated." ++ " Bubblewrap stderr:\n"
    ++ pyStripStr stderrText

/-- UTF-8 bytes of an ASCII-only string (codepoints below 128 encode as
themselves; every string the model encodes is ASCII). -/
def strBytes (s : String) : List Nat := s.data.map Char.toNat

/-- `_ShellProcess._run_locked` (shell.py lines 52-81): liveness check first,
then build the sentinel and the payload, write it, and run the capture loop.
Returns the ordered list of actions taken against the child alongside the
outcome. -/
def runLocked (poll : Option Int) (stderrText : String) (writeBroken : Bool)
    (markerHex : String) (events : List CEvent) (command : String) :
    List RunAction × RunOutcome :=
  if poll.isSome then
    ([RunAction.pollCheck],
      RunOutcome.failed (ShellErr.processTerminated (terminatedMessage stderrText)))
  else
    let marker := "__SHELL_DONE_" ++ markerHex ++ "__"
    let payload := framePayload command marker
    if writeBroken then
      ([RunAction.pollCheck, RunAction.write payload],
        RunOutcome.failed (ShellErr.processTerminated (terminatedMessage stderrText)))
    else
      ([RunAction.pollCheck, RunAction.write payload, RunAction.capture],
        match captureOutput (strBytes marker) events with
        | Except.error e => RunOutcome.failed (ShellErr.protocolError e)
        | Except.ok CaptureOutcome.blocked => RunOutcome.blocked
        | Except.ok (CaptureOutcome.done out err code) =>
          RunOutcome.result { exitCode := code, stdout := out, stderr := err })

/-- `Shell.run` (shell.py lines 138-147): a whitespace-only command
short-circuits to the trivial result without touching process or lock;
otherwise the execution lock is acquired and `_run_locked` runs. The
`isinstance` guard is vacuous here since commands are strings by type. -/
def shellRun (poll : Option Int) (stderrText : String) (writeBroken : Bool)
    (markerHex : String) (events : List CEvent) (command : String) :
    List RunAction × RunOutcome :=
  if pyStripStr command = "" then
    ([], RunOutcome.result { exitCode := 0, stdout := [], stderr := [] })
  else
    (RunAction.lockAcquire ::
        (runLocked poll stderrText writeBroken markerHex events command).1,
      (runLocked poll stderrText writeBroken markerHex events command).2)

example : shellRun (some 0) "" false "00" [] "   " =
    ([], RunOutcome.result { exitCode := 0, stdout := [], stderr := [] }) := rfl

/-- C6: on a non-empty command, a child that has already exited makes `run`
fail with the process-terminated error before any write to the child's stdin
(the action trace stops at the liveness check); the message carries the
stripped stderr diagnostic when one is available; and a write that raises
`BrokenPipeError` because the pipe closed concurrently produces the identical
error. -/
theorem run_fails_before_write_when_terminated (poll : Option Int)
    (stderrText markerHex command : String) (writeBroken : Bool)
    (events : List CEvent) (hcmd : pyStripStr command ≠ "") :
    (poll.isSome = true →
      shellRun poll stderrText writeBroken markerHex events command =
        ([RunAction.lockAcquire, RunAction.pollCheck],
          RunOutcome.failed
            (ShellErr.processTerminated (terminatedMessage stderrText)))) ∧
    (poll = none →
      shellRun poll stderrText true markerHex events command =
        ([RunAction.lockAcquire, RunAction.pollCheck,
            RunAction.write
              (framePayload command ("__SHELL_DONE_" ++ markerHex ++ "__"))],
          RunOutcome.failed
            (ShellErr.processTerminated (terminatedMessage stderrText)))) ∧
    (stderrText ≠ "" →
      terminatedMessage stderrText =
        "Shell session has terminated." ++ " Bubblewrap stderr:\n"
          ++ pyStripStr stderrText) := by
  refine ⟨?_, ?_, ?_⟩
  · intro hp
    simp [shellRun, hcmd, runLocked, hp]
  · intro hp
    subst hp
    simp [shellRun, hcmd, runLocked]
  · intro hs
    simp [terminatedMessage, hs]

/-- Witness for C6: command `ls`, child exited with status 1, stderr
diagnostic available. -/
theorem run_fails_before_write_when_terminated_witness :
    shellRun (some 1) "boom\n" false "00" [] "ls" =
      ([RunAction.lockAcquire, RunAction.pollCheck],
        RunOutcome.failed
          (ShellErr.processTerminated (terminatedMessage "boom\n"))) ∧
    terminatedMessage "boom\n" =
      "Shell session has terminated." ++ " Bubblewrap stderr:\n"
        ++ pyStripStr "boom\n" :=
  ⟨(run_fails_before_write_when_terminated (some 1) "boom\n" "00" "ls" false []
      (by decide)).1 rfl,
    (run_fails_before_write_when_terminated (some 1) "boom\n" "00" "ls" false []
      (by decide)).2.2 (by decide)⟩

/-- C8: a command that is empty or consists only of whitespace returns
exit code 0 with empty stdout and stderr, with an empty action trace — no
lock acquisition, no liveness check, no write, no read. -/
theorem empty_command_short_circuit (poll : Option Int)
    (stderrText markerHex : String) (writeBroken : Bool) (events : List CEvent)
    (command : String) (h : command.data.all Char.isWhitespace = true) :
    shellRun poll stderrText writeBroken markerHex events command =
      ([], RunOutcome.result { exitCode := 0, stdout := [], stderr := [] }) := by
  have hs : pyStripStr command = "" := by
    have hdrop : command.data.dropWhile Char.isWhitespace = [] := by
      rw [List.dropWhile_eq_nil_iff]
      intro a ha
      exact (List.all_eq_true.mp h) a ha
    rw [pyStripStr, hdrop]
    rfl
  simp [shellRun, hs]

/-- Witness for C8 at the command of two spaces and a tab. -/
theorem empty_command_short_circuit_witness :
    shellRun none "" false "00" [] "  \t" =
      ([], RunOutcome.result { exitCode := 0, stdout := [], stderr := [] }) :=
  empty_command_short_circuit none "" "00" false [] "  \t" (by decide)

/-! ### The session registry (`Shell.__init__`, shell.py lines 96-124)

Filesystem queries are abstract parameters: `validDir` models
`base_dir.exists() and base_dir.is_dir()`, `resolve` models `Path.resolve`
(normalisation to an absolute path), and `cwd` is `Path.cwd()` at
construction time. A spawned `_ShellProcess` is identified by a fresh id and
its bound root. -/

/-- A spawned `_ShellProcess`: fresh identity plus the bound root. -/
structure Proc where
  id : Nat
  root : String
deriving DecidableEq

/-- The process-wide `Shell._sessions` mapping plus a fresh-id counter for
newly spawned processes. -/
structure Registry where
  nextId : Nat
  sessions : List (String × Proc)
deriving DecidableEq

/-- Embedding of `Shell.__init__` (shell.py lines 102-124): reject an empty
session key, default the base directory to the current working directory,
validate it, resolve it, then look the key up under the registry lock —
creating and registering a process for a new key, returning the existing
process when the root matches, and failing when it differs. -/
def shellInit (validDir : String → Bool) (resolve : String → String)
    (cwd : String) (st : Registry) (session : String)
    (baseDirectory : Option String) : Except ShellErr (Registry × Proc) :=
  if session = "" then
    Except.error (ShellErr.configurationError "session must be a non-empty string")
  else if validDir (baseDirectory.getD cwd) = false then
    Except.error
      (ShellErr.configurationError "base_directory is not a valid directory")
  else
    let baseDir := resolve (baseDirectory.getD cwd)
    match st.sessions.lookup session with
    | none =>
      let p : Proc := { id := st.nextId, root := baseDir }
      Except.ok
        ({ nextId := st.nextId + 1, sessions := (session, p) :: st.sessions }, p)
    | some existing =>
      if existing.root ≠ baseDir then
        Except.error (ShellErr.configurationError
          "Session already exists with a different base directory")
      else Except.ok (st, existing)

/-- A sequence of `Session` constructions applied to the registry; each
request carries the current working directory at its construction time, the
session key and the optional base directory. Failed constructions leave the
registry as it was. -/
def runInits (validDir : String → Bool) (resolve : String → String) :
    Registry → List (String × String × Option String) → Registry
  | st, [] => st
  | st, req :: rest =>
    match shellInit validDir resolve req.1 st req.2.1 req.2.2 with
    | Except.ok (st', _) => runInits validDir resolve st' rest
    | Except.error _ => runInits validDir resolve st rest


theorem shellInit_preserves_lookup (validDir : String → Bool)
    (resolve : String → String) (cwd : String) (st : Registry) (session : String)
    (bd : Option String) (st' : Registry) (q : Proc) (k : String) (p : Proc)
    (hl : st.sessions.lookup k = some p)
    (h : shellInit validDir resolve cwd st session bd = Except.ok (st', q)) :
    st'.sessions.lookup k = some p := by
  by_cases hs : session = ""
  · rw [shellInit, if_pos hs] at h
    exact absurd h (by simp)
  by_cases hv : validDir (bd.getD cwd) = false
  · rw [shellInit, if_neg hs, if_pos hv] at h
    exact absurd h (by simp)
  rw [shellInit, if_neg hs, if_neg hv] at h
  cases hses : st.sessions.lookup session with
  | none =>
    simp only [hses, Except.ok.injEq, Prod.mk.injEq] at h
    obtain ⟨h1, -⟩ := h
    rw [← h1]
    have hkne : (k == session) = false := by
      rw [beq_eq_false_iff_ne]
      intro he
      rw [he, hses] at hl
      exact Option.noConfusion hl
    simp only [List.lookup, hkne]
    exact hl
  | some existing =>
    by_cases hroot : existing.root = resolve (bd.getD cwd)
    · have hnn : ¬ existing.root ≠ resolve (bd.getD cwd) := fun hn => hn hroot
      simp only [hses, if_neg hnn, Except.ok.injEq, Prod.mk.injEq] at h
      obtain ⟨h1, -⟩ := h
      rw [← h1]
      exact hl
    · simp only [hses, if_pos hroot] at h
      exact absurd h (by simp)

theorem runInits_preserves_lookup (validDir : String → Bool)
    (resolve : String → String) (reqs : List (String × String × Option String)) :
    ∀ (st : Registry) (k : String) (p : Proc),
      st.sessions.lookup k = some p →
      (runInits validDir resolve st reqs).sessions.lookup k = some p := by
  induction reqs with
  | nil => intro st k p h; simpa [runInits] using h
  | cons req rest ih =>
    intro st k p h
    rw [runInits]
    cases hinit : shellInit validDir resolve req.1 st req.2.1 req.2.2 with
    | error e => exact ih st k p h
    | ok pr =>
      exact ih pr.1 k p
        (shellInit_preserves_lookup validDir resolve req.1 st req.2.1 req.2.2
          pr.1 pr.2 k p h (by rw [hinit]))

/-- C5: the registry maps each session key to exactly one root for its whole
lifetime. Constructing with an existing key and an equal resolved root
returns the already-registered process and the unchanged registry;
constructing with an existing key and a different root fails with the
configuration error; and across any sequence of constructions an entry once
registered for a key never changes. -/
theorem session_registry_invariant (validDir : String → Bool)
    (resolve : String → String) :
    (∀ (cwd : String) (st : Registry) (session : String) (bd : Option String)
        (p : Proc), session ≠ "" → validDir (bd.getD cwd) = true →
      st.sessions.lookup session = some p → p.root = resolve (bd.getD cwd) →
      shellInit validDir resolve cwd st session bd = Except.ok (st, p)) ∧
    (∀ (cwd : String) (st : Registry) (session : String) (bd : Option String)
        (p : Proc), session ≠ "" → validDir (bd.getD cwd) = true →
      st.sessions.lookup session = some p → p.root ≠ resolve (bd.getD cwd) →
      shellInit validDir resolve cwd st session bd =
        Except.error (ShellErr.configurationError
          "Session already exists with a different base directory")) ∧
    (∀ (st : Registry) (reqs : List (String × String × Option String))
        (k : String) (p : Proc),
      st.sessions.lookup k = some p →
      (runInits validDir resolve st reqs).sessions.lookup k = some p) := by
  refine ⟨?_, ?_, ?_⟩
  · intro cwd st session bd p hs hv hl hr
    have hv' : ¬ validDir (bd.getD cwd) = false := by simp [hv]
    rw [shellInit, if_neg hs, if_neg hv']
    simp only [hl]
    rw [if_neg (fun hn => hn hr)]
  · intro cwd st session bd p hs hv hl hr
    have hv' : ¬ validDir (bd.getD cwd) = false := by simp [hv]
    rw [shellInit, if_neg hs, if_neg hv']
    simp only [hl]
    rw [if_pos hr]
  · exact fun st reqs k p h =>
      runInits_preserves_lookup validDir resolve reqs st k p h

/-- Witness for C5 over a concrete one-entry registry. -/
theorem session_registry_invariant_witness :
    shellInit (fun _ => true) id "/c" ⟨1, [("s", ⟨0, "/a"⟩)]⟩ "s" (some "/a") =
      Except.ok (⟨1, [("s", ⟨0, "/a"⟩)]⟩, ⟨0, "/a"⟩) ∧
    shellInit (fun _ => true) id "/c" ⟨1, [("s", ⟨0, "/a"⟩)]⟩ "s" (some "/b") =
      Except.error (ShellErr.configurationError
        "Session already exists with a different base directory") ∧
    (runInits (fun _ => true) id ⟨1, [("s", ⟨0, "/a"⟩)]⟩
        [("/c", "t", some "/b")]).sessions.lookup "s" = some ⟨0, "/a"⟩ := by
  refine ⟨?_, ?_, ?_⟩
  · exact (session_registry_invariant (fun _ => true) id).1 "/c"
      ⟨1, [("s", ⟨0, "/a"⟩)]⟩ "s" (some "/a") ⟨0, "/a"⟩ (by decide) rfl
      (by decide) rfl
  · exact (session_registry_invariant (fun _ => true) id).2.1 "/c"
      ⟨1, [("s", ⟨0, "/a"⟩)]⟩ "s" (some "/b") ⟨0, "/a"⟩ (by decide) rfl
      (by decide) (by decide)
  · exact (session_registry_invariant (fun _ => true) id).2.2
      ⟨1, [("s", ⟨0, "/a"⟩)]⟩ [("/c", "t", some "/b")] "s" ⟨0, "/a"⟩ (by decide)

/-- C10: with the base directory omitted (`none`), `Shell.__init__` behaves
exactly as when called with the current working directory passed explicitly,
and a fresh key binds the session to the resolved current working directory —
the defaulted root takes part in the same-key/same-root comparison like an
explicit one. -/
theorem default_base_directory_is_cwd (validDir : String → Bool)
    (resolve : String → String) :
    (∀ (cwd : String) (st : Registry) (session : String),
      shellInit validDir resolve cwd st session none =
        shellInit validDir resolve cwd st session (some cwd)) ∧
    (∀ (cwd : String) (st : Registry) (session : String), session ≠ "" →
      validDir cwd = true → st.sessions.lookup session = none →
      shellInit validDir resolve cwd st session none =
        Except.ok (⟨st.nextId + 1,
          (session, ⟨st.nextId, resolve cwd⟩) :: st.sessions⟩,
          ⟨st.nextId, resolve cwd⟩)) := by
  constructor
  · intro cwd st session
    rfl
  · intro cwd st session hs hv hl
    have hv' : ¬ validDir ((none : Option String).getD cwd) = false := by
      simpa using hv
    rw [shellInit, if_neg hs, if_neg hv']
    simp only [Option.getD, hl]

/-- Witness for C10: a fresh key with no base directory binds to the resolved
current working directory. -/
theorem default_base_directory_is_cwd_witness :
    shellInit (fun _ => true) id "/c" ⟨0, []⟩ "s" none =
      Except.ok (⟨1, [("s", ⟨0, "/c"⟩)]⟩, ⟨0, "/c"⟩) :=
  (default_base_directory_is_cwd (fun _ => true) id).2 "/c" ⟨0, []⟩ "s"
    (by decide) rfl rfl
